import Mathlib

/-!
Shallow embedding of the Campus Event Hub backend: the Registration
lifecycle (routes/registrations.js), the Registration Mongoose model
(models/Registration.js), and the event update/delete handlers
(routes/events.js).  Object ids are modelled as `Nat`, timestamps as
`Int` (epoch milliseconds), and each Express handler becomes a pure
function from an explicit database value and request data to
`Except ErrResp _`, where `ErrResp` carries the HTTP status code and
message of the JSON error response.
-/

namespace CampusEventHub

/-- `event_status` enum of the Event schema. -/
inductive EventStatus where
  | draft | published | ongoing | completed | cancelled
deriving DecidableEq, Repr

/-- `registration_mode` enum (Event schema) and `mode` enum (Registration schema). -/
inductive RegMode where
  | individual | team
deriving DecidableEq, Repr

/-- `status` enum of the Registration schema. -/
inductive RegStatus where
  | pending | confirmed | waitlisted | cancelled | rejected
deriving DecidableEq, Repr

/-- `role` enum of the member subdocument schema. -/
inductive MemberRole where
  | leader | member
deriving DecidableEq, Repr

/-- Values the registrations route code writes into `invite_status`.
The member subdocument schema's enum only allows the first four;
`pending_registration` is written by the POST handler but is not in
the schema enum. -/
inductive InviteStatus where
  | auto_added | invited | accepted | declined | pending_registration
deriving DecidableEq, Repr

/-- The member-schema enum check: `['auto_added','invited','accepted','declined']`. -/
def InviteStatus.inSchemaEnum : InviteStatus → Bool
  | .auto_added => true
  | .invited => true
  | .accepted => true
  | .declined => true
  | .pending_registration => false

/-- String form used in the `Invitation already ${member.invite_status}` message. -/
def InviteStatus.toMsg : InviteStatus → String
  | .auto_added => "auto_added"
  | .invited => "invited"
  | .accepted => "accepted"
  | .declined => "declined"
  | .pending_registration => "pending_registration"

/-- `field_type` enum of the form-field subdocument schema (Event model). -/
inductive FieldType where
  | short_text | long_text | number | email | phone | select | multi_select
  | date | file | url
deriving DecidableEq, Repr

/-- One entry of `Event.form_fields`. -/
structure FormField where
  field_id : String
  label : String
  field_type : FieldType
deriving DecidableEq, Repr

/-- The Event document fields read or written by the handlers under
verification. -/
structure Event where
  organizer_id : Nat
  event_type : String
  event_status : EventStatus
  registration_open : Bool
  registration_start_datetime : Int
  registration_end_datetime : Int
  max_teams : Option Nat
  registration_mode : RegMode
  min_team_size : Nat
  max_team_size : Nat
  form_fields : List FormField
  title : String := ""
  description : String := ""
  venue : String := ""
  poster_url : Option String := none
  start_datetime : Int := 0
  end_datetime : Int := 0
deriving DecidableEq, Repr

/-- A member subdocument.  `user_id` is `none` exactly when the POST
handler stored a provisional `{email, name}` invitee without a user
reference. -/
structure Member where
  user_id : Option Nat
  email : Option String
  name : Option String
  role : MemberRole
  invite_status : InviteStatus
  responded_at : Option Int := none
deriving DecidableEq, Repr

/-- An answer subdocument: the denormalized field label plus one value
slot per declared field type.  The raw submitted value is kept as a
string, as the handler copies `answer.value` verbatim into a slot;
Mongoose's cast of the number/date slots at save time (which can itself
fail the save) is outside this model, so the theorems below only ever
compare saves of registrations whose stored answers are equal. -/
structure Answer where
  field_id : String
  field_label : String
  value_text : Option String := none
  value_number : Option String := none
  value_date : Option String := none
deriving DecidableEq, Repr

/-- A Registration document. -/
structure Registration where
  event_id : Nat
  mode : RegMode
  leader_user_id : Nat
  team_name : Option String := none
  status : RegStatus := .pending
  members : List Member := []
  answers : List Answer := []
deriving DecidableEq, Repr

/-- A User document (only the fields the registration routes read). -/
structure User where
  id : Nat
  email : String
  name : String
deriving DecidableEq, Repr

/-- The store as seen by one request: events and registrations keyed by
id, plus the user collection. -/
structure Db where
  events : List (Nat × Event)
  users : List User
  registrations : List (Nat × Registration)
deriving Repr

/-- `Event.findById`. -/
def Db.findEvent (db : Db) (id : Nat) : Option Event :=
  (db.events.find? (fun p => p.1 == id)).map (·.2)

/-- `User.findById`. -/
def Db.findUser (db : Db) (id : Nat) : Option User :=
  db.users.find? (fun u => u.id == id)

/-- `User.findOne({ email })`. -/
def Db.findUserByEmail (db : Db) (email : String) : Option User :=
  db.users.find? (fun u => u.email == email)

/-- `Registration.findById`. -/
def Db.findRegistration (db : Db) (id : Nat) : Option Registration :=
  (db.registrations.find? (fun p => p.1 == id)).map (·.2)

/-- `Registration.findOne({ event_id, leader_user_id })` as a Bool. -/
def Db.hasRegistrationFor (db : Db) (eventId leaderId : Nat) : Bool :=
  db.registrations.any (fun p => p.2.event_id == eventId && p.2.leader_user_id == leaderId)

/-- `Registration.countDocuments({ event_id, status: { $in: ['pending','confirmed'] } })`. -/
def Db.countActiveRegistrations (db : Db) (eventId : Nat) : Nat :=
  (db.registrations.filter
    (fun p => p.2.event_id == eventId &&
      (p.2.status == RegStatus.pending || p.2.status == RegStatus.confirmed))).length

/-- An HTTP error response: status code and `message` field. -/
structure ErrResp where
  status : Nat
  message : String
deriving DecidableEq, Repr

/-! ## Registration model: save-time validation (models/Registration.js) -/

/-- Member subdocument validation: `user_id` is required and
`invite_status` must belong to the schema enum. -/
def memberSchemaValid (m : Member) : Bool :=
  m.user_id.isSome && m.invite_status.inSchemaEnum

/-- `s.trim().length === 0`: the string has no non-whitespace
character. -/
def jsIsBlank (s : String) : Bool :=
  s.data.all (fun c => c == ' ' || c == '\t' || c == '\n' || c == '\r')

/-- The `team_name` path validators: maxlength 100, and the custom
validator requiring a non-blank name when mode is team.  Mongoose skips
validators on an unset optional path, so an absent `team_name` passes. -/
def teamNameSchemaOk (r : Registration) : Bool :=
  match r.team_name with
  | none => true
  | some s => s.length ≤ 100 && (r.mode != RegMode.team || !jsIsBlank s)

/-- Outcome of a failed `registration.save()`: a Mongoose
`ValidationError`, or the plain `Error` thrown by the
`pre('save')` team-size hook. -/
inductive SaveErr where
  | validation
  | hookError (msg : String)
deriving DecidableEq, Repr

/-- `registration.save()` / `Registration.create(...)`.  Mongoose
validates all paths of a new document and only the modified paths of an
existing one; validation runs before the user `pre('save')` hook.  The
hook re-checks team size against the event (skipped when the event no
longer resolves, and when `members` was not modified).  The answer
subdocuments' value casts (`value_number : Number`, `value_date :
Date`), which can also fail a create, are not modelled here: answers
are carried through unchanged, and no theorem relies on how a save
treats them beyond saves of equal answer lists behaving alike. -/
def saveRegistration (db : Db) (r : Registration) (isNew membersModified : Bool) :
    Except SaveErr Registration :=
  if (isNew || membersModified) && !(r.members.all memberSchemaValid) then
    .error .validation
  else if isNew && !(teamNameSchemaOk r) then
    .error .validation
  else if r.mode == RegMode.team && membersModified then
    match db.findEvent r.event_id with
    | some event =>
      if r.members.length < event.min_team_size then
        .error (.hookError ("Team must have at least " ++
          toString event.min_team_size ++ " members"))
      else if r.members.length > event.max_team_size then
        .error (.hookError ("Team cannot have more than " ++
          toString event.max_team_size ++ " members"))
      else .ok r
    | none => .ok r
  else .ok r

/-! ## POST /api/registrations (routes/registrations.js) -/

/-- One element of the request's `team_members_info` list. -/
structure MemberInfo where
  email : String
  name : String
deriving DecidableEq, Repr

/-- One element of the request's `form_answers` list; the raw value is
kept as a string, since the handler copies it verbatim into a slot. -/
structure AnswerInput where
  field_id : String
  value : String
deriving DecidableEq, Repr

/-- The request body of POST /api/registrations. -/
structure CreateBody where
  event_id : Nat
  form_answers : Option (List AnswerInput) := none
  team_members : Option (List Nat) := none
  team_members_info : Option (List MemberInfo) := none
  team_name : Option String := none
deriving DecidableEq, Repr

/-- The six pre-construction checks of the POST handler, in source
order.  The capacity check runs only when `event.max_teams` is truthy
in JavaScript, i.e. present and nonzero. -/
def checkPreconditions (db : Db) (userId eventId : Nat) (now : Int) :
    Except ErrResp Event :=
  match db.findEvent eventId with
  | none => .error ⟨404, "Event not found"⟩
  | some event =>
    if event.event_status != EventStatus.published &&
       event.event_status != EventStatus.ongoing then
      .error ⟨400, "Registration is not open for this event"⟩
    else if !event.registration_open then
      .error ⟨400, "Registration is currently closed"⟩
    else if now < event.registration_start_datetime then
      .error ⟨400, "Registration has not started yet"⟩
    else if now > event.registration_end_datetime then
      .error ⟨400, "Registration deadline has passed"⟩
    else if db.hasRegistrationFor eventId userId then
      .error ⟨409, "You are already registered for this event"⟩
    else
      match event.max_teams with
      | some m =>
        if m != 0 && db.countActiveRegistrations eventId ≥ m then
          .error ⟨400, "Event has reached maximum capacity"⟩
        else .ok event
      | none => .ok event

/-- The `team_members` loop: each id is looked up (404 on a missing
user, before the leader-skip test), the leader's own id is skipped, and
the rest are appended as invited members. -/
def resolveTeamMembers (db : Db) (userId : Nat) :
    List Nat → Except ErrResp (List Member)
  | [] => .ok []
  | memberId :: rest =>
    match db.findUser memberId with
    | none => .error ⟨404, "User with ID " ++ toString memberId ++ " not found"⟩
    | some _ =>
      if memberId == userId then resolveTeamMembers db userId rest
      else
        match resolveTeamMembers db userId rest with
        | .error e => .error e
        | .ok tail =>
          .ok (⟨some memberId, none, none, MemberRole.member,
                InviteStatus.invited, none⟩ :: tail)

/-- The `team_members_info` loop: an email resolving to an existing
user (other than the leader) is appended as an invited member; an
unresolved pair is stored as a `pending_registration` member with no
user reference. -/
def resolveMembersInfo (db : Db) (userId : Nat) : List MemberInfo → List Member
  | [] => []
  | info :: rest =>
    match db.findUserByEmail info.email with
    | some u =>
      if u.id != userId then
        ⟨some u.id, none, none, MemberRole.member, InviteStatus.invited, none⟩ ::
          resolveMembersInfo db userId rest
      else resolveMembersInfo db userId rest
    | none =>
      ⟨none, some info.email, some info.name, MemberRole.member,
        InviteStatus.pending_registration, none⟩ :: resolveMembersInfo db userId rest

/-- Storage of one matched answer: the label is denormalized and the
value goes into the slot selected by the field's declared type. -/
def mkAnswer (f : FormField) (a : AnswerInput) : Answer :=
  match f.field_type with
  | FieldType.number =>
    { field_id := a.field_id, field_label := f.label, value_number := some a.value }
  | FieldType.date =>
    { field_id := a.field_id, field_label := f.label, value_date := some a.value }
  | _ =>
    { field_id := a.field_id, field_label := f.label, value_text := some a.value }

/-- The `form_answers` loop: answers whose `field_id` matches no form
field are silently skipped. -/
def processAnswers (fields : List FormField) : List AnswerInput → List Answer
  | [] => []
  | a :: rest =>
    match fields.find? (fun f => f.field_id == a.field_id) with
    | none => processAnswers fields rest
    | some f => mkAnswer f a :: processAnswers fields rest

/-- The first member pushed by the POST handler: the leader, auto-added. -/
def leaderMember (userId : Nat) : Member :=
  ⟨some userId, none, none, MemberRole.leader, InviteStatus.auto_added, none⟩

/-- The team-mode section of the POST handler: team-name check, member
assembly (leader auto-added first, then `team_members`, then
`team_members_info`), and the two team-size checks. -/
def buildTeamRegistration (db : Db) (userId : Nat) (event : Event)
    (body : CreateBody) (base : Registration) : Except ErrResp Registration :=
  match body.team_name with
  | none => .error ⟨400, "Team name is required for team events"⟩
  | some tn =>
    if jsIsBlank tn then
      .error ⟨400, "Team name is required for team events"⟩
    else
      match resolveTeamMembers db userId (body.team_members.getD []) with
      | .error e => .error e
      | .ok resolved =>
        let members :=
          leaderMember userId ::
            (resolved ++ resolveMembersInfo db userId (body.team_members_info.getD []))
        if members.length < event.min_team_size then
          .error ⟨400, "Team must have at least " ++
            toString event.min_team_size ++ " members"⟩
        else if members.length > event.max_team_size then
          .error ⟨400, "Team cannot have more than " ++
            toString event.max_team_size ++ " members"⟩
        else .ok { base with team_name := some tn, members := members }

/-- The whole POST /api/registrations handler: preconditions, team
construction, answer processing, and `Registration.create` (whose
`ValidationError` is answered 400 "Validation failed" and whose
hook error falls through to the 500 branch of the catch). -/
def createRegistration (db : Db) (userId : Nat) (body : CreateBody) (now : Int) :
    Except ErrResp Registration :=
  match checkPreconditions db userId body.event_id now with
  | .error e => .error e
  | .ok event =>
    let base : Registration :=
      { event_id := body.event_id, mode := event.registration_mode,
        leader_user_id := userId, status := RegStatus.pending }
    let assembled : Except ErrResp Registration :=
      match event.registration_mode with
      | RegMode.individual => .ok base
      | RegMode.team => buildTeamRegistration db userId event body base
    match assembled with
    | .error e => .error e
    | .ok reg =>
      let reg := { reg with
        answers := processAnswers event.form_fields (body.form_answers.getD []) }
      match saveRegistration db reg true true with
      | .error SaveErr.validation => .error ⟨400, "Validation failed"⟩
      | .error (SaveErr.hookError _) =>
        .error ⟨500, "Server error during registration"⟩
      | .ok r => .ok r

/-! ## JavaScript array scans over `members`

Some handlers scan `members` with an unguarded `m.user_id.toString()`
(or, on a populated document, `m.user_id._id.toString()`), which throws
a `TypeError` — answered by the catch block as a 500 — as soon as the
scan reaches a member whose reference is absent (or unresolvable). -/

/-- `members.findIndex(m => m.user_id.toString() === id)`. -/
def jsFindIndexByUserId : List Member → Nat → Except Unit (Option Nat)
  | [], _ => .ok none
  | m :: rest, mid =>
    match m.user_id with
    | none => .error ()
    | some u =>
      if u == mid then .ok (some 0)
      else
        match jsFindIndexByUserId rest mid with
        | .error () => .error ()
        | .ok none => .ok none
        | .ok (some i) => .ok (some (i + 1))

/-- `members.some(m => m.user_id.toString() === id)` on an unpopulated
document. -/
def jsSomeByUserId : List Member → Nat → Except Unit Bool
  | [], _ => .ok false
  | m :: rest, mid =>
    match m.user_id with
    | none => .error ()
    | some u => if u == mid then .ok true else jsSomeByUserId rest mid

/-- `members.some(m => m.user_id._id.toString() === id)` on a populated
document: a stored reference that no longer resolves to a user is
populated as `null`, so reaching it also throws. -/
def jsSomePopulatedByUserId (db : Db) : List Member → Nat → Except Unit Bool
  | [], _ => .ok false
  | m :: rest, uid =>
    match m.user_id with
    | none => .error ()
    | some u =>
      match db.findUser u with
      | none => .error ()
      | some _ =>
        if u == uid then .ok true else jsSomePopulatedByUserId db rest uid

/-- Placeholder member used to read a list cell at an index that is
known to be in bounds. -/
def defaultMember : Member :=
  ⟨none, none, none, MemberRole.member, InviteStatus.invited, none⟩

/-- `members.filter(m => m.invite_status === 'accepted' || m.invite_status
=== 'auto_added').length`, computed by both the promote step and the
removal guard. -/
def acceptedAutoCount (ms : List Member) : Nat :=
  (ms.filter (fun m =>
    m.invite_status == InviteStatus.accepted ||
    m.invite_status == InviteStatus.auto_added)).length

/-! ## PUT /api/registrations/:registrationId/invitation -/

/-- The invitation-response handler: the caller must appear as a member
(the scan here guards `m.user_id` before dereferencing), the entry must
still be `invited` (else 400 "Invitation already ..."), and the status
is flipped to accepted/declined.  `Registration.status` is never
touched. -/
def respondInvitation (db : Db) (userId registrationId : Nat) (accept : Bool) :
    Except ErrResp Registration :=
  match db.findRegistration registrationId with
  | none => .error ⟨404, "Registration not found"⟩
  | some registration =>
    match registration.members.findIdx? (fun m => m.user_id == some userId) with
    | none => .error ⟨404, "You are not invited to this team"⟩
    | some memberIndex =>
      let member := registration.members.getD memberIndex defaultMember
      if member.invite_status != InviteStatus.invited then
        .error ⟨400, "Invitation already " ++ member.invite_status.toMsg⟩
      else
        let newMembers := registration.members.set memberIndex
          { member with invite_status :=
              if accept then InviteStatus.accepted else InviteStatus.declined }
        match saveRegistration db { registration with members := newMembers }
            false true with
        | .error _ => .error ⟨500, "Server error while updating invitation"⟩
        | .ok r => .ok r

/-! ## PUT /api/registrations/:registrationId/members/:memberId -/

/-- The member invite-status update handler: no guard on the current
invite status; after the update, `status` is set to `confirmed`
whenever the accepted/auto_added count lies within the event's team
size bounds, whatever the registration's current status.  A missing
event makes `event.min_team_size` throw (500). -/
def updateMemberStatus (db : Db) (userId registrationId memberId : Nat)
    (newStatus : InviteStatus) (now : Int) : Except ErrResp Registration :=
  if newStatus != InviteStatus.accepted && newStatus != InviteStatus.declined then
    .error ⟨400, "Invalid invite status. Must be \"accepted\" or \"declined\""⟩
  else
    match db.findRegistration registrationId with
    | none => .error ⟨404, "Registration not found"⟩
    | some registration =>
      match jsFindIndexByUserId registration.members memberId with
      | .error () => .error ⟨500, "Server error while updating member status"⟩
      | .ok none => .error ⟨404, "Member not found in this registration"⟩
      | .ok (some idx) =>
        if userId != memberId then
          .error ⟨403, "You can only update your own invite status"⟩
        else
          let member := registration.members.getD idx defaultMember
          let newMembers := registration.members.set idx
            { member with invite_status := newStatus, responded_at := some now }
          match db.findEvent registration.event_id with
          | none => .error ⟨500, "Server error while updating member status"⟩
          | some event =>
            let updated := { registration with
              members := newMembers,
              status :=
                if acceptedAutoCount newMembers ≥ event.min_team_size &&
                   acceptedAutoCount newMembers ≤ event.max_team_size then
                  RegStatus.confirmed
                else registration.status }
            match saveRegistration db updated false true with
            | .error _ => .error ⟨500, "Server error while updating member status"⟩
            | .ok r => .ok r

/-! ## DELETE /api/registrations/:registrationId/members/:memberId -/

/-- The member-removal handler (leader only): the leader role is never
removed; removing an accepted/auto_added member is rejected when the
accepted/auto_added count is at or below `min_team_size`; then the
member is spliced out and the document saved (the save re-runs the
team-size hook on the shorter list). -/
def removeMember (db : Db) (userId registrationId memberId : Nat) :
    Except ErrResp Registration :=
  match db.findRegistration registrationId with
  | none => .error ⟨404, "Registration not found"⟩
  | some registration =>
    if registration.leader_user_id != userId then
      .error ⟨403, "Only team leader can remove members"⟩
    else
      match jsFindIndexByUserId registration.members memberId with
      | .error () => .error ⟨500, "Server error while removing team member"⟩
      | .ok none => .error ⟨404, "Member not found in team"⟩
      | .ok (some memberIndex) =>
        let memberToRemove := registration.members.getD memberIndex defaultMember
        if memberToRemove.role == MemberRole.leader then
          .error ⟨400, "Cannot remove team leader"⟩
        else
          match db.findEvent registration.event_id with
          | none => .error ⟨404, "Event not found"⟩
          | some event =>
            if (memberToRemove.invite_status == InviteStatus.accepted ||
                memberToRemove.invite_status == InviteStatus.auto_added) &&
               acceptedAutoCount registration.members ≤ event.min_team_size then
              .error ⟨400, "Cannot remove accepted member. Team must have at least "
                ++ toString event.min_team_size ++ " accepted members"⟩
            else
              match saveRegistration db
                  { registration with
                    members := registration.members.eraseIdx memberIndex }
                  false true with
              | .error _ => .error ⟨500, "Server error while removing team member"⟩
              | .ok r => .ok r

/-! ## GET /api/registrations/:registrationId -/

/-- The single-registration read: visible to the event's organizer, the
leader, any caller appearing in `members` (no invite-status condition),
or an admin. -/
def getRegistration (db : Db) (userId : Nat) (isAdmin : Bool)
    (registrationId : Nat) : Except ErrResp Registration :=
  match db.findRegistration registrationId with
  | none => .error ⟨404, "Registration not found"⟩
  | some registration =>
    let isOrganizer :=
      match db.findEvent registration.event_id with
      | some event => event.organizer_id == userId
      | none => false
    let isLeader := registration.leader_user_id == userId
    match jsSomePopulatedByUserId db registration.members userId with
    | .error () => .error ⟨500, "Server error while fetching registration"⟩
    | .ok isMember =>
      if !isOrganizer && !isLeader && !isMember && !isAdmin then
        .error ⟨403, "You are not authorized to view this registration"⟩
      else .ok registration

/-! ## GET /api/registrations -/

/-- The member branch of the list's `$or` filter.  The query
`{'members.user_id': uid, 'members.invite_status': {$in: [...]}}` has
no `$elemMatch`, so in MongoDB it matches a document in which SOME
member carries the user id and SOME member — possibly a different one —
has an invite status in the set. -/
def memberFilterMatches (uid : Nat) (r : Registration) : Bool :=
  r.members.any (fun m => m.user_id == some uid) &&
  r.members.any (fun m =>
    m.invite_status == InviteStatus.accepted ||
    m.invite_status == InviteStatus.auto_added)

/-- The `$or` visibility filter applied to non-organizer, non-admin
callers. -/
def visibleInList (uid : Nat) (r : Registration) : Bool :=
  r.leader_user_id == uid || memberFilterMatches uid r

/-- The optional `status` query filter. -/
def applyStatusFilter : Option RegStatus → List Registration → List Registration
  | none, l => l
  | some s, l => l.filter (fun r => r.status == s)

/-- The list handler (pagination and sorting omitted; they only select
from the filtered set).  With an `event_id`, the event's organizer and
admins see every registration of the event; anyone else gets the `$or`
filter.  Without an `event_id`, every caller gets the `$or` filter. -/
def listRegistrations (db : Db) (uid : Nat) (isAdmin : Bool)
    (eventFilter : Option Nat) (statusFilter : Option RegStatus) :
    Except ErrResp (List Registration) :=
  match eventFilter with
  | some eid =>
    match db.findEvent eid with
    | none => .error ⟨404, "Event not found"⟩
    | some event =>
      let base := (db.registrations.map (·.2)).filter (fun r => r.event_id == eid)
      let narrowed :=
        if event.organizer_id == uid || isAdmin then base
        else base.filter (visibleInList uid)
      .ok (applyStatusFilter statusFilter narrowed)
  | none =>
    .ok (applyStatusFilter statusFilter
      ((db.registrations.map (·.2)).filter (visibleInList uid)))

/-! ## DELETE /api/registrations/:registrationId -/

/-- The registration-cancel handler: leader, any member, or admin may
soft-delete by setting `status := cancelled`.  `members` is not
modified, so the save skips member validation and the team-size hook. -/
def cancelRegistration (db : Db) (userId : Nat) (isAdmin : Bool)
    (registrationId : Nat) : Except ErrResp Registration :=
  match db.findRegistration registrationId with
  | none => .error ⟨404, "Registration not found"⟩
  | some registration =>
    let isLeader := registration.leader_user_id == userId
    match jsSomeByUserId registration.members userId with
    | .error () => .error ⟨500, "Server error while cancelling registration"⟩
    | .ok isMember =>
      if !isLeader && !isMember && !isAdmin then
        .error ⟨403, "You are not authorized to cancel this registration"⟩
      else
        match saveRegistration db { registration with status := RegStatus.cancelled }
            false false with
        | .error _ => .error ⟨500, "Server error while cancelling registration"⟩
        | .ok r => .ok r

/-! ## PUT /api/events/:eventId and DELETE /api/events/:eventId
(routes/events.js).  Event-schema revalidation on save is omitted: none
of its validators reads `event_type` or `organizer_id`, the two fields
these claims are about, and neither field is ever written by the
handler. -/

/-- The update request body: `event_type` and `organizer_id` plus the
entries of the handler's `allowedUpdates` list (an absent field is
`none`). -/
structure EventUpdateBody where
  event_type : Option String := none
  organizer_id : Option Nat := none
  title : Option String := none
  description : Option String := none
  venue : Option String := none
  poster_url : Option String := none
  event_status : Option EventStatus := none
  start_datetime : Option Int := none
  end_datetime : Option Int := none
  registration_start_datetime : Option Int := none
  registration_end_datetime : Option Int := none
  max_teams : Option Nat := none
  registration_open : Option Bool := none
deriving DecidableEq, Repr

/-- The `allowedUpdates.forEach` copy: only the eleven allowed fields
are written; `event_type` and `organizer_id` are not in the list. -/
def applyEventUpdates (e : Event) (b : EventUpdateBody) : Event :=
  { e with
    title := b.title.getD e.title,
    description := b.description.getD e.description,
    venue := b.venue.getD e.venue,
    poster_url := match b.poster_url with | some p => some p | none => e.poster_url,
    event_status := b.event_status.getD e.event_status,
    start_datetime := b.start_datetime.getD e.start_datetime,
    end_datetime := b.end_datetime.getD e.end_datetime,
    registration_start_datetime :=
      b.registration_start_datetime.getD e.registration_start_datetime,
    registration_end_datetime :=
      b.registration_end_datetime.getD e.registration_end_datetime,
    max_teams := match b.max_teams with | some m => some m | none => e.max_teams,
    registration_open := b.registration_open.getD e.registration_open }

/-- `req.body.event_type && req.body.event_type !== event.event_type`:
the field is truthy (present and non-empty) and differs from the stored
type. -/
def eventTypeChangeRequested (body : EventUpdateBody) (event : Event) : Bool :=
  match body.event_type with
  | some t => t.length > 0 && t != event.event_type
  | none => false

/-- The event-update handler.  Once the event is published or ongoing,
a truthy `event_type` differing from the stored one, or any truthy
`organizer_id`, is rejected before anything is written. -/
def updateEvent (db : Db) (userId : Nat) (isAdmin : Bool) (eventId : Nat)
    (body : EventUpdateBody) : Except ErrResp Db :=
  match db.findEvent eventId with
  | none => .error ⟨404, "Event not found"⟩
  | some event =>
    if event.organizer_id != userId && !isAdmin then
      .error ⟨403, "You are not authorized to update this event"⟩
    else if (event.event_status == EventStatus.published ||
             event.event_status == EventStatus.ongoing) &&
            eventTypeChangeRequested body event then
      .error ⟨400, "Cannot change event type after publication"⟩
    else if (event.event_status == EventStatus.published ||
             event.event_status == EventStatus.ongoing) &&
            body.organizer_id.isSome then
      .error ⟨400, "Cannot change organizer after publication"⟩
    else
      .ok { db with events := db.events.map (fun p =>
        if p.1 == eventId then (p.1, applyEventUpdates p.2 body) else p) }

/-- The event-delete handler: a soft delete that sets
`event_status := cancelled` and keeps the record. -/
def deleteEvent (db : Db) (userId : Nat) (isAdmin : Bool) (eventId : Nat) :
    Except ErrResp Db :=
  match db.findEvent eventId with
  | none => .error ⟨404, "Event not found"⟩
  | some event =>
    if event.organizer_id != userId && !isAdmin then
      .error ⟨403, "You are not authorized to delete this event"⟩
    else
      .ok { db with events := db.events.map (fun p =>
        if p.1 == eventId then
          (p.1, { p.2 with event_status := EventStatus.cancelled })
        else p) }

/-! ## Concrete fixtures used by witnesses and counterexamples.
User 1 is the leader, users 2 and 3 are other accounts, user 9 is the
organizer.  Event 10 is a published team event with a live registration
window around `now = 50`, `min_team_size = 2`, `max_team_size = 4`. -/

def sampleEvent : Event :=
  { organizer_id := 9, event_type := "hackathon",
    event_status := EventStatus.published, registration_open := true,
    registration_start_datetime := 0, registration_end_datetime := 100,
    max_teams := none, registration_mode := RegMode.team,
    min_team_size := 2, max_team_size := 4,
    form_fields := [⟨"f1", "Age", FieldType.number⟩,
      ⟨"f2", "DOB", FieldType.date⟩, ⟨"f3", "Why", FieldType.short_text⟩] }

def sampleUsers : List User :=
  [⟨1, "lead@example.com", "Lead"⟩, ⟨2, "bee@example.com", "Bee"⟩,
   ⟨3, "cee@example.com", "Cee"⟩]

/-- Event 10 exists and nobody is registered yet. -/
def freshDb : Db :=
  { events := [(10, sampleEvent)], users := sampleUsers, registrations := [] }

/-- A cancelled team registration (id 77) with an outstanding invitation
for user 2. -/
def cancelledReg : Registration :=
  { event_id := 10, mode := RegMode.team, leader_user_id := 1,
    team_name := some "T", status := RegStatus.cancelled,
    members := [leaderMember 1,
      ⟨some 2, none, none, MemberRole.member, InviteStatus.invited, none⟩] }

def cancelledDb : Db :=
  { events := [(10, sampleEvent)], users := sampleUsers,
    registrations := [(77, cancelledReg)] }

/-- A confirmed team registration (id 78) in which user 2 has already
accepted. -/
def acceptedReg : Registration :=
  { event_id := 10, mode := RegMode.team, leader_user_id := 1,
    team_name := some "T", status := RegStatus.confirmed,
    members := [leaderMember 1,
      ⟨some 2, none, none, MemberRole.member, InviteStatus.accepted, some 5⟩] }

def acceptedDb : Db :=
  { events := [(10, sampleEvent)], users := sampleUsers,
    registrations := [(78, acceptedReg)] }

/-- A pending team registration (id 79) at the minimum team size whose
second member is still only invited. -/
def pendingReg : Registration :=
  { event_id := 10, mode := RegMode.team, leader_user_id := 1,
    team_name := some "T", status := RegStatus.pending,
    members := [leaderMember 1,
      ⟨some 2, none, none, MemberRole.member, InviteStatus.invited, none⟩] }

def pendingDb : Db :=
  { events := [(10, sampleEvent)], users := sampleUsers,
    registrations := [(79, pendingReg)] }

/-- A create request whose `team_members_info` pair does not resolve to
any account by email. -/
def unresolvedPairBody : CreateBody :=
  { event_id := 10, team_name := some "T",
    team_members_info := some [⟨"ghost@example.com", "Ghost"⟩] }

/-- A create request listing the same existing account id twice. -/
def duplicateIdBody : CreateBody :=
  { event_id := 10, team_name := some "T", team_members := some [2, 2] }

/-! ## Characterization of the create preconditions -/

theorem checkPreconditions_ok_iff (db : Db) (uid eid : Nat) (now : Int) (ev : Event) :
    checkPreconditions db uid eid now = .ok ev ↔
      db.findEvent eid = some ev ∧
      (ev.event_status = EventStatus.published ∨ ev.event_status = EventStatus.ongoing) ∧
      ev.registration_open = true ∧
      ev.registration_start_datetime ≤ now ∧
      now ≤ ev.registration_end_datetime ∧
      db.hasRegistrationFor eid uid = false ∧
      (∀ m, ev.max_teams = some m → m ≠ 0 →
        db.countActiveRegistrations eid < m) := by
  unfold checkPreconditions
  cases hfe : db.findEvent eid with
  | none => simp [hfe]
  | some e =>
    simp only [hfe, Option.some.injEq]
    split_ifs with h1 h2 h3 h4 h5
    · simp only [Bool.and_eq_true, bne_iff_ne, ne_eq] at h1
      constructor
      · intro h; cases h
      · rintro ⟨rfl, h, -⟩
        exact absurd h (by tauto)
    · simp only [Bool.and_eq_true, bne_iff_ne, ne_eq, not_and_or, not_not] at h1
      simp only [Bool.not_eq_true'] at h2
      constructor
      · intro h; cases h
      · rintro ⟨rfl, -, hopen, -⟩
        rw [h2] at hopen; cases hopen
    · constructor
      · intro h; cases h
      · rintro ⟨rfl, -, -, hstart, -⟩
        omega
    · constructor
      · intro h; cases h
      · rintro ⟨rfl, -, -, -, hend, -⟩
        omega
    · constructor
      · intro h; cases h
      · rintro ⟨rfl, -, -, -, -, hreg, -⟩
        rw [hreg] at h5; cases h5
    · have hst : e.event_status = EventStatus.published ∨
          e.event_status = EventStatus.ongoing := by
        by_contra hc
        push_neg at hc
        exact h1 (by simp [hc.1, hc.2])
      have hopen : e.registration_open = true := by
        cases hb : e.registration_open
        · exact absurd (by simp [hb]) h2
        · rfl
      push_neg at h3 h4
      rw [Bool.not_eq_true] at h5
      cases hmt : e.max_teams with
      | none =>
        simp only [Except.ok.injEq]
        constructor
        · rintro rfl
          refine ⟨rfl, hst, hopen, h3, h4, h5, ?_⟩
          intro m hm; rw [hmt] at hm; cases hm
        · rintro ⟨rfl, -⟩; rfl
      | some m =>
        dsimp only
        split_ifs with hcap
        · simp only [Bool.and_eq_true, bne_iff_ne, ne_eq, decide_eq_true_eq,
            ge_iff_le] at hcap
          constructor
          · intro h; cases h
          · rintro ⟨rfl, -, -, -, -, -, hall⟩
            have := hall m hmt hcap.1
            omega
        · simp only [Bool.and_eq_true, not_and_or, bne_iff_ne, ne_eq, not_not,
            decide_eq_true_eq, not_le, ge_iff_le] at hcap
          simp only [Except.ok.injEq]
          constructor
          · rintro rfl
            refine ⟨rfl, hst, hopen, h3, h4, h5, ?_⟩
            intro k hk hk0
            rw [hmt] at hk
            cases hk
            rcases hcap with h | h
            · exact absurd h hk0
            · exact h
          · rintro ⟨rfl, -⟩; rfl

theorem checkPreconditions_notFound (db : Db) (uid eid : Nat) (now : Int)
    (h : db.findEvent eid = none) :
    checkPreconditions db uid eid now = .error ⟨404, "Event not found"⟩ := by
  unfold checkPreconditions; rw [h]

theorem checkPreconditions_statusErr (db : Db) (uid eid : Nat) (now : Int)
    (ev : Event) (h : db.findEvent eid = some ev)
    (h1 : ¬(ev.event_status = EventStatus.published ∨
            ev.event_status = EventStatus.ongoing)) :
    checkPreconditions db uid eid now =
      .error ⟨400, "Registration is not open for this event"⟩ := by
  unfold checkPreconditions
  rw [h]
  push_neg at h1
  simp [h1.1, h1.2]

theorem checkPreconditions_closedErr (db : Db) (uid eid : Nat) (now : Int)
    (ev : Event) (h : db.findEvent eid = some ev)
    (h1 : ev.event_status = EventStatus.published ∨
          ev.event_status = EventStatus.ongoing)
    (h2 : ev.registration_open = false) :
    checkPreconditions db uid eid now =
      .error ⟨400, "Registration is currently closed"⟩ := by
  unfold checkPreconditions
  rw [h]
  rcases h1 with h1 | h1 <;> simp [h1, h2]

theorem checkPreconditions_notStartedErr (db : Db) (uid eid : Nat) (now : Int)
    (ev : Event) (h : db.findEvent eid = some ev)
    (h1 : ev.event_status = EventStatus.published ∨
          ev.event_status = EventStatus.ongoing)
    (h2 : ev.registration_open = true)
    (h3 : now < ev.registration_start_datetime) :
    checkPreconditions db uid eid now =
      .error ⟨400, "Registration has not started yet"⟩ := by
  unfold checkPreconditions
  rw [h]
  rcases h1 with h1 | h1 <;> simp [h1, h2, h3]

theorem checkPreconditions_deadlineErr (db : Db) (uid eid : Nat) (now : Int)
    (ev : Event) (h : db.findEvent eid = some ev)
    (h1 : ev.event_status = EventStatus.published ∨
          ev.event_status = EventStatus.ongoing)
    (h2 : ev.registration_open = true)
    (h3 : ev.registration_start_datetime ≤ now)
    (h4 : ev.registration_end_datetime < now) :
    checkPreconditions db uid eid now =
      .error ⟨400, "Registration deadline has passed"⟩ := by
  unfold checkPreconditions
  rw [h]
  rcases h1 with h1 | h1 <;> simp [h1, h2, h4, not_lt.mpr h3]

theorem checkPreconditions_conflictErr (db : Db) (uid eid : Nat) (now : Int)
    (ev : Event) (h : db.findEvent eid = some ev)
    (h1 : ev.event_status = EventStatus.published ∨
          ev.event_status = EventStatus.ongoing)
    (h2 : ev.registration_open = true)
    (h3 : ev.registration_start_datetime ≤ now)
    (h4 : now ≤ ev.registration_end_datetime)
    (h5 : db.hasRegistrationFor eid uid = true) :
    checkPreconditions db uid eid now =
      .error ⟨409, "You are already registered for this event"⟩ := by
  unfold checkPreconditions
  rw [h]
  rcases h1 with h1 | h1 <;> simp [h1, h2, h5, not_lt.mpr h3, not_lt.mpr h4]

theorem checkPreconditions_capacityErr (db : Db) (uid eid : Nat) (now : Int)
    (ev : Event) (m : Nat) (h : db.findEvent eid = some ev)
    (h1 : ev.event_status = EventStatus.published ∨
          ev.event_status = EventStatus.ongoing)
    (h2 : ev.registration_open = true)
    (h3 : ev.registration_start_datetime ≤ now)
    (h4 : now ≤ ev.registration_end_datetime)
    (h5 : db.hasRegistrationFor eid uid = false)
    (h6 : ev.max_teams = some m) (h7 : 0 < m)
    (h8 : m ≤ db.countActiveRegistrations eid) :
    checkPreconditions db uid eid now =
      .error ⟨400, "Event has reached maximum capacity"⟩ := by
  unfold checkPreconditions
  rw [h]
  rcases h1 with h1 | h1 <;>
    simp [h1, h2, h5, h6, not_lt.mpr h3, not_lt.mpr h4,
      Nat.pos_iff_ne_zero.mp h7, h8]

theorem createRegistration_error_of_check (db : Db) (uid : Nat)
    (body : CreateBody) (now : Int) (e : ErrResp)
    (h : checkPreconditions db uid body.event_id now = .error e) :
    createRegistration db uid body now = .error e := by
  unfold createRegistration; rw [h]

theorem createRegistration_ok_check (db : Db) (uid : Nat)
    (body : CreateBody) (now : Int) (reg : Registration)
    (h : createRegistration db uid body now = .ok reg) :
    ∃ ev, checkPreconditions db uid body.event_id now = .ok ev := by
  unfold createRegistration at h
  cases hc : checkPreconditions db uid body.event_id now with
  | error e => rw [hc] at h; simp at h
  | ok ev => exact ⟨ev, rfl⟩

/-- C1: For every create-registration request, the preconditions are
checked in the spec's order, each producing a distinct failure: a
missing event gives NotFound (404); a status other than
published/ongoing gives "Registration is not open for this event";
`registration_open = false` gives "Registration is currently closed"; a
time outside the registration window gives "Registration has not
started yet" / "Registration deadline has passed"; an existing
registration for (event, caller) gives Conflict (409); and a set
`max_teams` at or below the pending/confirmed count gives the capacity
error.  A registration is created only when all six checks pass. -/
theorem c1_create_checks_in_order (db : Db) (userId : Nat)
    (body : CreateBody) (now : Int) :
    (db.findEvent body.event_id = none →
      createRegistration db userId body now = .error ⟨404, "Event not found"⟩) ∧
    (∀ ev, db.findEvent body.event_id = some ev →
      (¬(ev.event_status = EventStatus.published ∨
         ev.event_status = EventStatus.ongoing) →
        createRegistration db userId body now =
          .error ⟨400, "Registration is not open for this event"⟩) ∧
      ((ev.event_status = EventStatus.published ∨
        ev.event_status = EventStatus.ongoing) →
        ev.registration_open = false →
        createRegistration db userId body now =
          .error ⟨400, "Registration is currently closed"⟩) ∧
      ((ev.event_status = EventStatus.published ∨
        ev.event_status = EventStatus.ongoing) →
        ev.registration_open = true →
        now < ev.registration_start_datetime →
        createRegistration db userId body now =
          .error ⟨400, "Registration has not started yet"⟩) ∧
      ((ev.event_status = EventStatus.published ∨
        ev.event_status = EventStatus.ongoing) →
        ev.registration_open = true →
        ev.registration_start_datetime ≤ now →
        ev.registration_end_datetime < now →
        createRegistration db userId body now =
          .error ⟨400, "Registration deadline has passed"⟩) ∧
      ((ev.event_status = EventStatus.published ∨
        ev.event_status = EventStatus.ongoing) →
        ev.registration_open = true →
        ev.registration_start_datetime ≤ now →
        now ≤ ev.registration_end_datetime →
        db.hasRegistrationFor body.event_id userId = true →
        createRegistration db userId body now =
          .error ⟨409, "You are already registered for this event"⟩) ∧
      (∀ m, (ev.event_status = EventStatus.published ∨
             ev.event_status = EventStatus.ongoing) →
        ev.registration_open = true →
        ev.registration_start_datetime ≤ now →
        now ≤ ev.registration_end_datetime →
        db.hasRegistrationFor body.event_id userId = false →
        ev.max_teams = some m → 0 < m →
        m ≤ db.countActiveRegistrations body.event_id →
        createRegistration db userId body now =
          .error ⟨400, "Event has reached maximum capacity"⟩)) ∧
    (∀ reg, createRegistration db userId body now = .ok reg →
      ∃ ev, db.findEvent body.event_id = some ev ∧
        (ev.event_status = EventStatus.published ∨
         ev.event_status = EventStatus.ongoing) ∧
        ev.registration_open = true ∧
        ev.registration_start_datetime ≤ now ∧
        now ≤ ev.registration_end_datetime ∧
        db.hasRegistrationFor body.event_id userId = false ∧
        (∀ m, ev.max_teams = some m → 0 < m →
          db.countActiveRegistrations body.event_id < m)) := by
  refine ⟨?_, ?_, ?_⟩
  · intro h
    exact createRegistration_error_of_check _ _ _ _ _
      (checkPreconditions_notFound _ _ _ _ h)
  · intro ev hev
    refine ⟨?_, ?_, ?_, ?_, ?_, ?_⟩
    · intro h1
      exact createRegistration_error_of_check _ _ _ _ _
        (checkPreconditions_statusErr _ _ _ _ _ hev h1)
    · intro h1 h2
      exact createRegistration_error_of_check _ _ _ _ _
        (checkPreconditions_closedErr _ _ _ _ _ hev h1 h2)
    · intro h1 h2 h3
      exact createRegistration_error_of_check _ _ _ _ _
        (checkPreconditions_notStartedErr _ _ _ _ _ hev h1 h2 h3)
    · intro h1 h2 h3 h4
      exact createRegistration_error_of_check _ _ _ _ _
        (checkPreconditions_deadlineErr _ _ _ _ _ hev h1 h2 h3 h4)
    · intro h1 h2 h3 h4 h5
      exact createRegistration_error_of_check _ _ _ _ _
        (checkPreconditions_conflictErr _ _ _ _ _ hev h1 h2 h3 h4 h5)
    · intro m h1 h2 h3 h4 h5 h6 h7 h8
      exact createRegistration_error_of_check _ _ _ _ _
        (checkPreconditions_capacityErr _ _ _ _ _ _ hev h1 h2 h3 h4 h5 h6 h7 h8)
  · intro reg hok
    obtain ⟨ev, hc⟩ := createRegistration_ok_check _ _ _ _ _ hok
    rw [checkPreconditions_ok_iff] at hc
    exact ⟨ev, hc.1, hc.2.1, hc.2.2.1, hc.2.2.2.1, hc.2.2.2.2.1, hc.2.2.2.2.2.1,
      fun m hm h0 => hc.2.2.2.2.2.2 m hm (Nat.pos_iff_ne_zero.mp h0)⟩

/-- Witness for C1 at a concrete input: event id 99 does not exist in
`freshDb`, and the create answers 404 "Event not found". -/
theorem c1_witness :
    freshDb.findEvent 99 = none ∧
    createRegistration freshDb 1 { event_id := 99 } 50 =
      .error ⟨404, "Event not found"⟩ := by
  refine ⟨rfl, ?_⟩
  exact (c1_create_checks_in_order freshDb 1 { event_id := 99 } 50).1 rfl

/-! ## Save-time facts shared by the update handlers -/

/-- A successful `registration.save()` returns the document unchanged. -/
theorem saveRegistration_ok_eq (db : Db) (r : Registration) (n m : Bool)
    (r' : Registration) (h : saveRegistration db r n m = .ok r') : r' = r := by
  unfold saveRegistration at h
  repeat' split at h
  all_goals cases h
  all_goals rfl

/-- A hit from the unguarded `findIndex` scan is a valid index. -/
theorem jsFindIndex_lt_length (ms : List Member) (mid idx : Nat)
    (h : jsFindIndexByUserId ms mid = .ok (some idx)) : idx < ms.length := by
  induction ms generalizing idx with
  | nil => cases h
  | cons m rest ih =>
    unfold jsFindIndexByUserId at h
    split at h
    · cases h
    · split at h
      · injection h with h
        injection h with h
        subst h
        simp
      · split at h
        · cases h
        · injection h with h; cases h
        · rename_i i heq
          injection h with h
          injection h with h
          subst h
          have := ih i heq
          simp only [List.length_cons]
          omega

/-- C2: the claim says a team create whose {email, name} pair resolves
to no account succeeds, storing the pair as a member with
invite_status = pending_registration and no account reference.  The
POST handler does assemble exactly that member (first conjunct), but
the member schema requires `user_id` and its `invite_status` enum lacks
`pending_registration`, so `Registration.create` raises a
ValidationError and the request fails with 400 "Validation failed"
(second conjunct): the handler contradicts its own model schema. -/
theorem c2_pending_member_create_fails :
    resolveMembersInfo freshDb 1 [⟨"ghost@example.com", "Ghost"⟩] =
      [⟨none, some "ghost@example.com", some "Ghost", MemberRole.member,
        InviteStatus.pending_registration, none⟩] ∧
    createRegistration freshDb 1 unresolvedPairBody 50 =
      .error ⟨400, "Validation failed"⟩ := ⟨rfl, rfl⟩

/-- C3 counterexample: the members route promotes a registration whose
status is cancelled — a state the claim calls terminal — to confirmed
when the invited member accepts. -/
theorem c3_counterexample :
    (cancelledDb.findRegistration 77).map Registration.status =
      some RegStatus.cancelled ∧
    (updateMemberStatus cancelledDb 2 77 2 InviteStatus.accepted 60).map
      Registration.status = .ok RegStatus.confirmed := ⟨rfl, rfl⟩

/-- C3 (amended): status promotion happens only in the PUT
members/:memberId handler — whenever it succeeds the resulting status
is confirmed exactly when the post-update accepted/auto_added count
lies within the event's team-size bounds, and is the prior status
(whatever it was, including cancelled or rejected) otherwise; the PUT
invitation handler never changes the status; the cancel handler always
sets cancelled, from any prior status. -/
theorem c3_status_transitions :
    (∀ (db : Db) (uid rid : Nat) (acc : Bool) (r r' : Registration),
      db.findRegistration rid = some r →
      respondInvitation db uid rid acc = .ok r' →
      r'.status = r.status) ∧
    (∀ (db : Db) (uid rid mid : Nat) (ns : InviteStatus) (now : Int)
        (r : Registration) (ev : Event) (r' : Registration),
      db.findRegistration rid = some r →
      db.findEvent r.event_id = some ev →
      updateMemberStatus db uid rid mid ns now = .ok r' →
      r'.status =
        (if ev.min_team_size ≤ acceptedAutoCount r'.members ∧
            acceptedAutoCount r'.members ≤ ev.max_team_size then
          RegStatus.confirmed
        else r.status)) ∧
    (∀ (db : Db) (uid : Nat) (adm : Bool) (rid : Nat) (r' : Registration),
      cancelRegistration db uid adm rid = .ok r' →
      r'.status = RegStatus.cancelled) := by
  refine ⟨?_, ?_, ?_⟩
  · intro db uid rid acc r r' hr h
    unfold respondInvitation at h
    rw [hr] at h
    dsimp only at h
    split at h
    · cases h
    · split at h
      · cases h
      · split at h
        · cases h
        · rename_i rs hs
          injection h with h
          subst h
          rw [saveRegistration_ok_eq _ _ _ _ _ hs]
  · intro db uid rid mid ns now r ev r' hr hev h
    unfold updateMemberStatus at h
    split at h
    · cases h
    · rw [hr] at h
      dsimp only at h
      split at h
      · cases h
      · cases h
      · rw [hev] at h
        dsimp only at h
        split at h
        · cases h
        · split at h
          · cases h
          · rename_i rs hs
            injection h with h
            subst h
            rw [saveRegistration_ok_eq _ _ _ _ _ hs]
            dsimp only
            simp only [ge_iff_le, Bool.and_eq_true, decide_eq_true_eq]
  · intro db uid adm rid r' h
    unfold cancelRegistration at h
    split at h
    · cases h
    · dsimp only at h
      split at h
      · cases h
      · split at h
        · cases h
        · split at h
          · cases h
          · rename_i rs hs
            injection h with h
            subst h
            rw [saveRegistration_ok_eq _ _ _ _ _ hs]

/-- The document produced by a successful accept of invitation 79 by
user 2: the member flips to accepted, the status stays pending. -/
def pendingRegAfterAccept : Registration :=
  { event_id := 10, mode := RegMode.team, leader_user_id := 1,
    team_name := some "T", status := RegStatus.pending,
    members := [leaderMember 1,
      ⟨some 2, none, none, MemberRole.member, InviteStatus.accepted, none⟩] }

/-- Witness for C3 (amended) at a concrete input: an accept through the
PUT invitation route leaves the status pending even though the
accepted/auto_added count has just entered the team-size bounds. -/
theorem c3_witness :
    (respondInvitation pendingDb 2 79 true).map Registration.status =
      Except.ok RegStatus.pending := by
  have hok : respondInvitation pendingDb 2 79 true = .ok pendingRegAfterAccept := rfl
  have hs := (c3_status_transitions).1 pendingDb 2 79 true pendingReg
    pendingRegAfterAccept rfl hok
  rw [hok]
  show Except.ok pendingRegAfterAccept.status = Except.ok RegStatus.pending
  rw [hs]
  rfl

/-- C4 counterexample: user 2's invitation in registration 78 is
already accepted, yet the members route accepts a new response,
silently succeeds and overwrites the status with declined. -/
theorem c4_counterexample :
    (acceptedDb.findRegistration 78).map
        (fun r => r.members.map Member.invite_status) =
      some [InviteStatus.auto_added, InviteStatus.accepted] ∧
    (updateMemberStatus acceptedDb 2 78 2 InviteStatus.declined 60).map
        (fun r => r.members.map Member.invite_status) =
      .ok [InviteStatus.auto_added, InviteStatus.declined] := ⟨rfl, rfl⟩

/-- C4 (amended): only the PUT invitation route is idempotent — there a
response to a member whose invite_status is not 'invited' fails with
400 "Invitation already <status>" and writes nothing.  The PUT
members/:memberId route has no guard: whenever it succeeds it
overwrites the target member's invite_status with the requested value,
whatever the prior value was. -/
theorem c4_idempotence_split :
    (∀ (db : Db) (uid rid : Nat) (acc : Bool) (r : Registration) (idx : Nat),
      db.findRegistration rid = some r →
      r.members.findIdx? (fun m => m.user_id == some uid) = some idx →
      (r.members.getD idx defaultMember).invite_status ≠ InviteStatus.invited →
      respondInvitation db uid rid acc =
        .error ⟨400, "Invitation already " ++
          (r.members.getD idx defaultMember).invite_status.toMsg⟩) ∧
    (∀ (db : Db) (uid rid mid : Nat) (ns : InviteStatus) (now : Int)
        (r : Registration) (idx : Nat) (r' : Registration),
      db.findRegistration rid = some r →
      jsFindIndexByUserId r.members mid = .ok (some idx) →
      updateMemberStatus db uid rid mid ns now = .ok r' →
      (r'.members.getD idx defaultMember).invite_status = ns) := by
  constructor
  · intro db uid rid acc r idx hr hidx hne
    unfold respondInvitation
    rw [hr]
    dsimp only
    rw [hidx]
    dsimp only
    rw [if_pos (by simpa [bne_iff_ne] using hne)]
  · intro db uid rid mid ns now r idx r' hr hfind h
    unfold updateMemberStatus at h
    split at h
    · cases h
    · rw [hr] at h
      dsimp only at h
      rw [hfind] at h
      dsimp only at h
      split at h
      · cases h
      · split at h
        · cases h
        · split at h
          · cases h
          · rename_i rs hs
            injection h with h
            subst h
            rw [saveRegistration_ok_eq _ _ _ _ _ hs]
            have hlt : idx < r.members.length := jsFindIndex_lt_length _ _ _ hfind
            simp [List.getD_eq_getElem?_getD, List.getElem?_set_self',
              List.getElem?_eq_getElem hlt]

/-- Witness for C4 (amended) at a concrete input: responding again
through the PUT invitation route to the already-accepted invitation of
registration 78 fails with "Invitation already accepted". -/
theorem c4_witness :
    respondInvitation acceptedDb 2 78 true =
      .error ⟨400, "Invitation already accepted"⟩ := by
  have h := (c4_idempotence_split).1 acceptedDb 2 78 true acceptedReg 1 rfl rfl
    (by decide)
  exact h

/-- C10: create-registration does not deduplicate non-leader member
ids: listing account 2 twice in `team_members` yields a registration
whose members reference account 2 twice, and both entries count toward
the team-size bounds (the create passed the min 2 / max 4 checks with
three member entries). -/
theorem c10_duplicate_member_ids_kept :
    (createRegistration freshDb 1 duplicateIdBody 50).map
        (fun r => r.members.map Member.user_id) =
      .ok [some 1, some 2, some 2] ∧
    (createRegistration freshDb 1 duplicateIdBody 50).map
        (fun r => r.members.length) = .ok 3 ∧
    sampleEvent.min_team_size = 2 ∧ sampleEvent.max_team_size = 4 :=
  ⟨rfl, rfl, rfl, rfl⟩

/-- C5: in every team create that reaches member assembly (leader
auto-added first, then the resolved additional members of any invite
status), the create fails with the error naming the violated bound
whenever the total member count is below `min_team_size` or above
`max_team_size`, and a created registration's member list is exactly
the assembled one, within both bounds.  (`min_team_size ≤
max_team_size` is the Event-schema invariant.) -/
theorem c5_team_size_bounds (db : Db) (uid : Nat) (body : CreateBody)
    (now : Int) (ev : Event) (tn : String) (resolved : List Member)
    (hc : checkPreconditions db uid body.event_id now = .ok ev)
    (hm : ev.registration_mode = RegMode.team)
    (hmx : ev.min_team_size ≤ ev.max_team_size)
    (htn : body.team_name = some tn)
    (hbl : jsIsBlank tn = false)
    (hres : resolveTeamMembers db uid (body.team_members.getD []) = .ok resolved) :
    (let members := leaderMember uid ::
      (resolved ++ resolveMembersInfo db uid (body.team_members_info.getD []));
    (members.length < ev.min_team_size →
      createRegistration db uid body now =
        .error ⟨400, "Team must have at least " ++
          toString ev.min_team_size ++ " members"⟩) ∧
    (members.length > ev.max_team_size →
      createRegistration db uid body now =
        .error ⟨400, "Team cannot have more than " ++
          toString ev.max_team_size ++ " members"⟩) ∧
    (∀ reg, createRegistration db uid body now = .ok reg →
      reg.members = members ∧
      ev.min_team_size ≤ members.length ∧
      members.length ≤ ev.max_team_size)) := by
  intro members
  have hbuild : ∀ base, buildTeamRegistration db uid ev body base =
      (if members.length < ev.min_team_size then
        .error ⟨400, "Team must have at least " ++
          toString ev.min_team_size ++ " members"⟩
      else if members.length > ev.max_team_size then
        .error ⟨400, "Team cannot have more than " ++
          toString ev.max_team_size ++ " members"⟩
      else .ok { base with team_name := some tn, members := members }) := by
    intro base
    unfold buildTeamRegistration
    simp only [htn, hbl, hres]
    rfl
  have hcreate : createRegistration db uid body now =
      (match buildTeamRegistration db uid ev body
          { event_id := body.event_id, mode := ev.registration_mode,
            leader_user_id := uid, status := RegStatus.pending } with
      | .error e => .error e
      | .ok reg =>
        match saveRegistration db
            { reg with answers :=
                processAnswers ev.form_fields (body.form_answers.getD []) }
            true true with
        | .error SaveErr.validation => .error ⟨400, "Validation failed"⟩
        | .error (SaveErr.hookError _) =>
          .error ⟨500, "Server error during registration"⟩
        | .ok r => .ok r) := by
    unfold createRegistration
    rw [hc]
    dsimp only
    rw [hm]
  refine ⟨?_, ?_, ?_⟩
  · intro hlt
    rw [hcreate, hbuild, if_pos hlt]
  · intro hgt
    rw [hcreate, hbuild, if_neg (by omega), if_pos hgt]
  · intro reg hok
    rw [hcreate, hbuild] at hok
    by_cases hlt : members.length < ev.min_team_size
    · rw [if_pos hlt] at hok; cases hok
    · rw [if_neg hlt] at hok
      by_cases hgt : members.length > ev.max_team_size
      · rw [if_pos hgt] at hok; cases hok
      · rw [if_neg hgt] at hok
        dsimp only at hok
        split at hok
        · cases hok
        · cases hok
        · rename_i rs hs
          injection hok with hok
          subst hok
          have heq := saveRegistration_ok_eq _ _ _ _ _ hs
          rw [heq]
          exact ⟨rfl, by omega, by omega⟩

/-- Witness for C5 at the spec's Scenario A: `min_team_size = 2` and a
team create with zero additional members fails with "Team must have at
least 2 members". -/
theorem c5_witness :
    createRegistration freshDb 1 { event_id := 10, team_name := some "T" } 50 =
      .error ⟨400, "Team must have at least 2 members"⟩ := by
  have h := (c5_team_size_bounds freshDb 1
    { event_id := 10, team_name := some "T" } 50 sampleEvent "T" []
    rfl rfl (by decide) rfl rfl rfl).1 (by decide)
  exact h

/-- C6 counterexample: an invited (not accepted) member should by the
claim always be removable, but removing user 2 from registration 79
(total size 2 = min_team_size) fails — the save-time team-size hook
rejects the shorter list and the handler answers 500. -/
theorem c6_counterexample :
    (pendingDb.findRegistration 79).map
        (fun r => r.members.map Member.invite_status) =
      some [InviteStatus.auto_added, InviteStatus.invited] ∧
    removeMember pendingDb 1 79 2 =
      .error ⟨500, "Server error while removing team member"⟩ := ⟨rfl, rfl⟩

/-- C6 (amended): the leader role is never removed; removing an
accepted/auto_added member is rejected when the accepted/auto_added
count is at or below `min_team_size`; an invited or declined member is
removed without that check, but the save still validates the remaining
total size, so such a removal succeeds exactly when the remaining
member count stays within the event's bounds and fails with a 500 when
it drops below `min_team_size`. -/
theorem c6_member_removal (db : Db) (uid rid mid : Nat)
    (r : Registration) (idx : Nat)
    (hr : db.findRegistration rid = some r)
    (hlead : r.leader_user_id = uid)
    (hfind : jsFindIndexByUserId r.members mid = .ok (some idx)) :
    (let mem := r.members.getD idx defaultMember;
    (mem.role = MemberRole.leader →
      removeMember db uid rid mid = .error ⟨400, "Cannot remove team leader"⟩) ∧
    (∀ ev, mem.role ≠ MemberRole.leader →
      db.findEvent r.event_id = some ev →
      (mem.invite_status = InviteStatus.accepted ∨
       mem.invite_status = InviteStatus.auto_added) →
      acceptedAutoCount r.members ≤ ev.min_team_size →
      removeMember db uid rid mid =
        .error ⟨400, "Cannot remove accepted member. Team must have at least "
          ++ toString ev.min_team_size ++ " accepted members"⟩) ∧
    (∀ ev, mem.role ≠ MemberRole.leader →
      db.findEvent r.event_id = some ev →
      (mem.invite_status = InviteStatus.invited ∨
       mem.invite_status = InviteStatus.declined) →
      r.mode = RegMode.team →
      (r.members.eraseIdx idx).all memberSchemaValid = true →
      ((ev.min_team_size ≤ (r.members.eraseIdx idx).length ∧
        (r.members.eraseIdx idx).length ≤ ev.max_team_size →
        removeMember db uid rid mid =
          .ok { r with members := r.members.eraseIdx idx }) ∧
       ((r.members.eraseIdx idx).length < ev.min_team_size →
        removeMember db uid rid mid =
          .error ⟨500, "Server error while removing team member"⟩)))) := by
  intro mem
  have hstart : removeMember db uid rid mid =
      (if mem.role == MemberRole.leader then
        .error ⟨400, "Cannot remove team leader"⟩
      else
        match db.findEvent r.event_id with
        | none => .error ⟨404, "Event not found"⟩
        | some event =>
          if (mem.invite_status == InviteStatus.accepted ||
              mem.invite_status == InviteStatus.auto_added) &&
             acceptedAutoCount r.members ≤ event.min_team_size then
            .error ⟨400, "Cannot remove accepted member. Team must have at least "
              ++ toString event.min_team_size ++ " accepted members"⟩
          else
            match saveRegistration db
                { r with members := r.members.eraseIdx idx } false true with
            | .error _ => .error ⟨500, "Server error while removing team member"⟩
            | .ok r2 => .ok r2) := by
    unfold removeMember
    rw [hr]
    dsimp only
    rw [hlead]
    simp only [bne_self_eq_false, Bool.false_eq_true, if_false]
    rw [hfind]
  refine ⟨?_, ?_, ?_⟩
  · intro hrole
    rw [hstart, if_pos (by simp [hrole])]
  · intro ev hrole hev hacc hcount
    rw [hstart, if_neg (by simp [hrole]), hev]
    dsimp only
    rw [if_pos]
    simp only [Bool.and_eq_true, Bool.or_eq_true, beq_iff_eq, decide_eq_true_eq]
    exact ⟨hacc, hcount⟩
  · intro ev hrole hev hinv hteam hvalid
    have hnacc : ((mem.invite_status == InviteStatus.accepted ||
        mem.invite_status == InviteStatus.auto_added) &&
        decide (acceptedAutoCount r.members ≤ ev.min_team_size)) = false := by
      rcases hinv with h | h <;> simp [h]
    constructor
    · intro hbounds
      rw [hstart, if_neg (by simp [hrole]), hev]
      dsimp only
      rw [if_neg (by simp [hnacc])]
      have hsave : saveRegistration db
          { r with members := r.members.eraseIdx idx } false true =
          .ok { r with members := r.members.eraseIdx idx } := by
        unfold saveRegistration
        rw [if_neg (by simp [hvalid]), if_neg (by simp)]
        rw [if_pos (by simp [hteam])]
        dsimp only
        rw [hev]
        dsimp only
        rw [if_neg (by omega), if_neg (by omega)]
      rw [hsave]
    · intro hlow
      rw [hstart, if_neg (by simp [hrole]), hev]
      dsimp only
      rw [if_neg (by simp [hnacc])]
      have hsave : saveRegistration db
          { r with members := r.members.eraseIdx idx } false true =
          .error (SaveErr.hookError ("Team must have at least " ++
            toString ev.min_team_size ++ " members")) := by
        unfold saveRegistration
        rw [if_neg (by simp [hvalid]), if_neg (by simp)]
        rw [if_pos (by simp [hteam])]
        dsimp only
        rw [hev]
        dsimp only
        rw [if_pos hlow]
      rw [hsave]

/-- Witness for C6 (amended) at the spec's Scenario F: removing the
only other accepted member while the accepted count equals
`min_team_size = 2` is rejected. -/
theorem c6_witness :
    removeMember acceptedDb 1 78 2 =
      .error ⟨400,
        "Cannot remove accepted member. Team must have at least 2 accepted members"⟩ := by
  have h := ((c6_member_removal acceptedDb 1 78 2 acceptedReg 1
    rfl rfl rfl).2.1) sampleEvent (by decide) rfl (Or.inl rfl) (by decide)
  exact h

theorem mkAnswer_field_id (f : FormField) (a : AnswerInput) :
    (mkAnswer f a).field_id = a.field_id := by
  unfold mkAnswer; split <;> rfl

theorem processAnswers_sound (fields : List FormField)
    (answers : List AnswerInput) :
    ∀ out ∈ processAnswers fields answers, ∃ a, a ∈ answers ∧
      ∃ f, fields.find? (fun g => g.field_id == a.field_id) = some f ∧
        out = mkAnswer f a := by
  induction answers with
  | nil => intro out h; cases h
  | cons b rest ih =>
    intro out hout
    unfold processAnswers at hout
    cases hb : fields.find? (fun g => g.field_id == b.field_id) <;>
      rw [hb] at hout
    · obtain ⟨a, ha, f, hf, heq⟩ := ih out hout
      exact ⟨a, List.mem_cons_of_mem _ ha, f, hf, heq⟩
    · rename_i fb
      cases hout with
      | head => exact ⟨b, List.mem_cons_self _ _, fb, hb, rfl⟩
      | tail _ htail =>
        obtain ⟨a, ha, f, hf, heq⟩ := ih out htail
        exact ⟨a, List.mem_cons_of_mem _ ha, f, hf, heq⟩

theorem processAnswers_complete (fields : List FormField)
    (answers : List AnswerInput) (a : AnswerInput) (f : FormField)
    (ha : a ∈ answers)
    (hf : fields.find? (fun g => g.field_id == a.field_id) = some f) :
    mkAnswer f a ∈ processAnswers fields answers := by
  induction answers with
  | nil => cases ha
  | cons b rest ih =>
    unfold processAnswers
    rcases List.mem_cons.mp ha with rfl | hrest
    · rw [hf]
      exact List.mem_cons_self _ _
    · cases hb : fields.find? (fun g => g.field_id == b.field_id)
      · exact ih hrest
      · exact List.mem_cons_of_mem _ (ih hrest)



/-- C7: in answer processing, an answer whose field identifier matches
no form field is silently dropped: no output carries its id, dropping
it leaves the processed list unchanged, and because the create only
ever sees the processed list, two submissions with the same processed
answers — in particular ones differing only in unmatched answers —
give the identical create result (it never fails on their account).  A
matched answer is stored with the denormalized field label, its value
placed in value_number when the field type is number, value_date when
it is date, and value_text otherwise. -/
theorem c7_answer_processing :
    (∀ (fields : List FormField) (answers : List AnswerInput)
        (a : AnswerInput), a ∈ answers →
      fields.find? (fun g => g.field_id == a.field_id) = none →
      ∀ out ∈ processAnswers fields answers, out.field_id ≠ a.field_id) ∧
    (∀ (fields : List FormField) (answers : List AnswerInput)
        (a : AnswerInput) (f : FormField), a ∈ answers →
      fields.find? (fun g => g.field_id == a.field_id) = some f →
      mkAnswer f a ∈ processAnswers fields answers) ∧
    (∀ (f : FormField) (a : AnswerInput),
      (mkAnswer f a).field_id = a.field_id ∧
      (mkAnswer f a).field_label = f.label ∧
      (f.field_type = FieldType.number →
        mkAnswer f a =
          { field_id := a.field_id, field_label := f.label,
            value_number := some a.value }) ∧
      (f.field_type = FieldType.date →
        mkAnswer f a =
          { field_id := a.field_id, field_label := f.label,
            value_date := some a.value }) ∧
      (f.field_type ≠ FieldType.number → f.field_type ≠ FieldType.date →
        mkAnswer f a =
          { field_id := a.field_id, field_label := f.label,
            value_text := some a.value })) ∧
    (∀ (fields : List FormField) (a : AnswerInput) (rest : List AnswerInput),
      fields.find? (fun g => g.field_id == a.field_id) = none →
      processAnswers fields (a :: rest) = processAnswers fields rest) ∧
    (∀ (db : Db) (uid : Nat) (body : CreateBody) (now : Int) (ev : Event)
        (fa1 fa2 : Option (List AnswerInput)),
      checkPreconditions db uid body.event_id now = .ok ev →
      processAnswers ev.form_fields (fa1.getD []) =
        processAnswers ev.form_fields (fa2.getD []) →
      createRegistration db uid { body with form_answers := fa1 } now =
        createRegistration db uid { body with form_answers := fa2 } now) := by
  refine ⟨?_, ?_, ?_, ?_, ?_⟩
  · intro fields answers a ha hnone out hout
    obtain ⟨a2, ha2, f, hf, rfl⟩ := processAnswers_sound fields answers out hout
    rw [mkAnswer_field_id]
    intro hcontra
    simp only [hcontra] at hf
    rw [hnone] at hf
    cases hf
  · intro fields answers a f ha hf
    exact processAnswers_complete fields answers a f ha hf
  · intro f a
    refine ⟨mkAnswer_field_id f a, ?_, ?_, ?_, ?_⟩
    · unfold mkAnswer; split <;> rfl
    · intro ht
      unfold mkAnswer
      rw [ht]
    · intro ht
      unfold mkAnswer
      rw [ht]
    · intro h1 h2
      unfold mkAnswer
      cases hft : f.field_type <;>
        first
          | rfl
          | exact absurd hft h1
          | exact absurd hft h2
  · intro fields a rest h
    have hstep : processAnswers fields (a :: rest) =
        (match fields.find? (fun g => g.field_id == a.field_id) with
        | none => processAnswers fields rest
        | some f => mkAnswer f a :: processAnswers fields rest) := rfl
    rw [hstep, h]
  · intro db uid body now ev fa1 fa2 hc hp
    cases body with
    | mk eid fa tm tmi tn =>
      unfold createRegistration
      dsimp only
      rw [hc]
      dsimp only
      cases hmode : ev.registration_mode
      · dsimp only
        rw [hp]
      · dsimp only
        have hbe : buildTeamRegistration db uid ev ⟨eid, fa1, tm, tmi, tn⟩
              { event_id := eid, mode := RegMode.team,
                leader_user_id := uid, status := RegStatus.pending } =
            buildTeamRegistration db uid ev ⟨eid, fa2, tm, tmi, tn⟩
              { event_id := eid, mode := RegMode.team,
                leader_user_id := uid, status := RegStatus.pending } := rfl
        rw [hbe]
        cases hb : buildTeamRegistration db uid ev ⟨eid, fa2, tm, tmi, tn⟩
            { event_id := eid, mode := RegMode.team,
              leader_user_id := uid, status := RegStatus.pending }
        · rfl
        · rename_i reg
          dsimp only
          rw [hp]

/-- Witness for C7 at concrete inputs: the matched number answer "f1"
is stored, while submitting only the unmatched id "zz" gives the very
same create result as submitting no answers at all. -/
theorem c7_witness :
    mkAnswer ⟨"f1", "Age", FieldType.number⟩ ⟨"f1", "20"⟩ ∈
      processAnswers sampleEvent.form_fields [⟨"zz", "x"⟩, ⟨"f1", "20"⟩] ∧
    createRegistration freshDb 1
        { event_id := 10, team_name := some "T", team_members := some [2],
          form_answers := some [⟨"zz", "x"⟩] } 50 =
      createRegistration freshDb 1
        { event_id := 10, team_name := some "T", team_members := some [2],
          form_answers := none } 50 := by
  constructor
  · exact (c7_answer_processing).2.1 sampleEvent.form_fields
      [⟨"zz", "x"⟩, ⟨"f1", "20"⟩] ⟨"f1", "20"⟩ ⟨"f1", "Age", FieldType.number⟩
      (by decide) rfl
  · exact (c7_answer_processing).2.2.2.2 freshDb 1
      { event_id := 10, team_name := some "T", team_members := some [2] } 50
      sampleEvent (some [⟨"zz", "x"⟩]) none rfl rfl

theorem find_map_keyed (l : List (Nat × Event)) (eid k : Nat) (g : Event → Event) :
    ((l.map (fun p => if p.1 == eid then (p.1, g p.2) else p)).find?
      (fun p => p.1 == k)) =
    (l.find? (fun p => p.1 == k)).map
      (fun p => if p.1 == eid then (p.1, g p.2) else p) := by
  have hkey : ∀ q : Nat × Event, ((if q.1 == eid then (q.1, g q.2) else q).1) = q.1 := by
    intro q; split <;> rfl
  induction l with
  | nil => rfl
  | cons p rest ih =>
    simp only [List.map_cons]
    cases hpk : (p.1 == k)
    · rw [List.find?_cons_of_neg, List.find?_cons_of_neg]
      · exact ih
      · simp [hpk]
      · simp only [hkey p]
        simp [hpk]
    · rw [List.find?_cons_of_pos, List.find?_cons_of_pos]
      · rfl
      · simp at hpk
        simp [hpk]
      · simp only [hkey p]
        simp at hpk
        simp [hpk]

theorem findEvent_pointUpdate (db : Db) (eid k : Nat) (g : Event → Event) :
    (Db.mk (db.events.map (fun p => if p.1 == eid then (p.1, g p.2) else p))
      db.users db.registrations).findEvent k =
    (if k = eid then (db.findEvent k).map g else db.findEvent k) := by
  unfold Db.findEvent
  dsimp only
  rw [find_map_keyed]
  cases hf : db.events.find? (fun p => p.1 == k)
  · simp
  · rename_i q
    have hq : q.1 = k := by
      have := List.find?_some hf
      simpa using this
    by_cases hk : k = eid
    · subst hk
      simp [hq]
    · simp [hq, hk]



/-- C8: on a published or ongoing Event, a requested change of
event_type (or any organizer_id in the body) is rejected with a 400 and
nothing is written; on any successful update only the eleven allowed
fields are copied, so event_type and organizer_id are unchanged and all
other events untouched; deletion is a soft delete that sets
event_status to cancelled and keeps the record (the events list keeps
its length). -/
theorem c8_publication_and_soft_delete :
    (∀ (db : Db) (uid : Nat) (adm : Bool) (eid : Nat) (body : EventUpdateBody)
        (ev : Event),
      db.findEvent eid = some ev →
      (ev.organizer_id = uid ∨ adm = true) →
      (ev.event_status = EventStatus.published ∨
       ev.event_status = EventStatus.ongoing) →
      (eventTypeChangeRequested body ev = true →
        updateEvent db uid adm eid body =
          .error ⟨400, "Cannot change event type after publication"⟩) ∧
      (eventTypeChangeRequested body ev = false →
        ∀ o, body.organizer_id = some o →
        updateEvent db uid adm eid body =
          .error ⟨400, "Cannot change organizer after publication"⟩)) ∧
    (∀ (db : Db) (uid : Nat) (adm : Bool) (eid : Nat) (body : EventUpdateBody)
        (db' : Db),
      updateEvent db uid adm eid body = .ok db' →
      (∀ k, k ≠ eid → db'.findEvent k = db.findEvent k) ∧
      db'.findEvent eid = (db.findEvent eid).map (fun ev => applyEventUpdates ev body) ∧
      (∀ ev, db.findEvent eid = some ev →
        db'.findEvent eid = some (applyEventUpdates ev body) ∧
        (applyEventUpdates ev body).event_type = ev.event_type ∧
        (applyEventUpdates ev body).organizer_id = ev.organizer_id)) ∧
    (∀ (db : Db) (uid : Nat) (adm : Bool) (eid : Nat) (db' : Db),
      deleteEvent db uid adm eid = .ok db' →
      (∀ k, k ≠ eid → db'.findEvent k = db.findEvent k) ∧
      (∀ ev, db.findEvent eid = some ev →
        db'.findEvent eid = some { ev with event_status := EventStatus.cancelled }) ∧
      db'.events.length = db.events.length) := by
  refine ⟨?_, ?_, ?_⟩
  · intro db uid adm eid body ev hev hauth hstatus
    have hauthb : (ev.organizer_id != uid && !adm) = false := by
      rcases hauth with h | h <;> simp [h]
    have hstatusb : (ev.event_status == EventStatus.published ||
        ev.event_status == EventStatus.ongoing) = true := by
      rcases hstatus with h | h <;> simp [h]
    constructor
    · intro hreq
      unfold updateEvent
      rw [hev]
      dsimp only
      rw [if_neg (by simp [hauthb]), if_pos (by simp [hstatusb, hreq])]
    · intro hreq o ho
      unfold updateEvent
      rw [hev]
      dsimp only
      rw [if_neg (by simp [hauthb]), if_neg (by simp [hreq]),
        if_pos (by simp [hstatusb, ho])]
  · intro db uid adm eid body db' h
    unfold updateEvent at h
    split at h
    · cases h
    · rename_i ev hev
      split at h
      · cases h
      · split at h
        · cases h
        · split at h
          · cases h
          · injection h with h
            subst h
            refine ⟨?_, ?_, ?_⟩
            · intro k hk
              rw [show (db.events.map (fun p =>
                  if p.1 == eid then (p.1, applyEventUpdates p.2 body) else p)) =
                  (db.events.map (fun p =>
                  if p.1 == eid then (p.1, (fun e => applyEventUpdates e body) p.2) else p)) from rfl]
              rw [findEvent_pointUpdate db eid k (fun e => applyEventUpdates e body)]
              simp [hk]
            · rw [findEvent_pointUpdate db eid eid (fun e => applyEventUpdates e body)]
              simp
            · intro ev2 hev2
              refine ⟨?_, rfl, rfl⟩
              rw [findEvent_pointUpdate db eid eid (fun e => applyEventUpdates e body)]
              simp [hev2]
  · intro db uid adm eid db' h
    unfold deleteEvent at h
    split at h
    · cases h
    · split at h
      · cases h
      · injection h with h
        subst h
        refine ⟨?_, ?_, by simp⟩
        · intro k hk
          rw [findEvent_pointUpdate db eid k
            (fun e => { e with event_status := EventStatus.cancelled })]
          simp [hk]
        · intro ev hev
          rw [findEvent_pointUpdate db eid eid
            (fun e => { e with event_status := EventStatus.cancelled })]
          simp [hev]



/-- Witness for C8 at a concrete input: changing the published
event 10's type is rejected; deleting it keeps the record with status
cancelled. -/
theorem c8_witness :
    updateEvent freshDb 9 false 10 { event_type := some "seminar" } =
      .error ⟨400, "Cannot change event type after publication"⟩ ∧
    (deleteEvent freshDb 9 false 10).map (fun db2 => db2.findEvent 10) =
      .ok (some { sampleEvent with event_status := EventStatus.cancelled }) := by
  constructor
  · exact ((c8_publication_and_soft_delete).1 freshDb 9 false 10
      { event_type := some "seminar" } sampleEvent rfl (Or.inl rfl)
      (Or.inl rfl)).1 (by decide)
  · have hdel : deleteEvent freshDb 9 false 10 =
        .ok ⟨[(10, { sampleEvent with event_status := EventStatus.cancelled })],
          sampleUsers, []⟩ := rfl
    have h3 := (((c8_publication_and_soft_delete).2.2 freshDb 9 false 10 _
      hdel).2.1) sampleEvent rfl
    rw [hdel]
    show Except.ok ((Db.mk
      [(10, { sampleEvent with event_status := EventStatus.cancelled })]
      sampleUsers []).findEvent 10) =
      Except.ok (some { sampleEvent with event_status := EventStatus.cancelled })
    rw [h3]

theorem jsSomePopulated_of_resolvable (db : Db) (ms : List Member) (uid : Nat)
    (hres : ∀ m ∈ ms, ∃ u, m.user_id = some u ∧ (db.findUser u).isSome = true) :
    jsSomePopulatedByUserId db ms uid =
      .ok (ms.any (fun m => m.user_id == some uid)) := by
  induction ms with
  | nil => rfl
  | cons m rest ih =>
    obtain ⟨u, hu, hfind⟩ := hres m (List.mem_cons_self _ _)
    unfold jsSomePopulatedByUserId
    rw [hu]
    dsimp only
    cases hf : db.findUser u
    · rw [hf] at hfind; cases hfind
    · dsimp only
      by_cases huid : u = uid
      · subst huid
        simp [hu]
      · rw [if_neg (by simpa using huid)]
        rw [ih (fun m2 hm2 => hres m2 (List.mem_cons_of_mem _ hm2))]
        simp [hu, huid]

/-- C9 counterexample: user 2 is only an invited member of
registration 79 (not the organizer, leader, accepted member, or an
admin), yet the direct get succeeds and the list for event 10 includes
the registration (the query's separate array conditions are satisfied
by user 2's entry and the auto_added leader's entry). -/
theorem c9_counterexample :
    (pendingDb.findRegistration 79).map
        (fun r => (r.leader_user_id, r.members.map Member.invite_status)) =
      some (1, [InviteStatus.auto_added, InviteStatus.invited]) ∧
    sampleEvent.organizer_id = 9 ∧
    getRegistration pendingDb 2 false 79 = .ok pendingReg ∧
    listRegistrations pendingDb 2 false (some 10) none = .ok [pendingReg] :=
  ⟨rfl, rfl, rfl, rfl⟩

/-- C9 (amended): a caller who is not the organizer, not the leader,
not an admin, and does not appear in `members` at all is denied (403 on
a direct get, and never matched by the list filter).  But membership
with any invite_status grants the direct get, and the list filter
without `$elemMatch` matches whenever the caller appears in `members`
and some member — typically the auto_added leader — has invite_status
accepted/auto_added. -/
theorem c9_visibility :
    (∀ (db : Db) (uid rid : Nat) (r : Registration),
      db.findRegistration rid = some r →
      (∀ ev, db.findEvent r.event_id = some ev → ev.organizer_id ≠ uid) →
      r.leader_user_id ≠ uid →
      (∀ m ∈ r.members, ∃ u, m.user_id = some u ∧ (db.findUser u).isSome = true) →
      ((∀ m ∈ r.members, m.user_id ≠ some uid) →
        getRegistration db uid false rid =
          .error ⟨403, "You are not authorized to view this registration"⟩) ∧
      ((∃ m ∈ r.members, m.user_id = some uid) →
        getRegistration db uid false rid = .ok r)) ∧
    (∀ (uid : Nat) (r : Registration),
      visibleInList uid r = true ↔
        (r.leader_user_id = uid ∨
          ((∃ m ∈ r.members, m.user_id = some uid) ∧
           (∃ m ∈ r.members, m.invite_status = InviteStatus.accepted ∨
             m.invite_status = InviteStatus.auto_added)))) ∧
    (∀ (db : Db) (uid : Nat) (s : Option RegStatus) (l : List Registration)
        (r : Registration),
      listRegistrations db uid false none s = .ok l → r ∈ l →
      visibleInList uid r = true) ∧
    (∀ (db : Db) (uid eid : Nat) (ev : Event) (s : Option RegStatus)
        (l : List Registration) (r : Registration),
      db.findEvent eid = some ev → ev.organizer_id ≠ uid →
      listRegistrations db uid false (some eid) s = .ok l → r ∈ l →
      visibleInList uid r = true) := by
  refine ⟨?_, ?_, ?_, ?_⟩
  · intro db uid rid r hr horg hlead hres
    have horgb : (match db.findEvent r.event_id with
        | some event => event.organizer_id == uid
        | none => false) = false := by
      cases hfe : db.findEvent r.event_id
      · rfl
      · rename_i ev
        simp [horg ev hfe]
    have hleadb : (r.leader_user_id == uid) = false := by simp [hlead]
    constructor
    · intro hno
      have hany : r.members.any (fun m => m.user_id == some uid) = false := by
        rw [List.any_eq_false]
        intro m hm
        simp [hno m hm]
      unfold getRegistration
      rw [hr]
      dsimp only
      rw [jsSomePopulated_of_resolvable db r.members uid hres]
      dsimp only
      rw [if_pos (by simp [horgb, hleadb, hany])]
    · intro hyes
      have hany : r.members.any (fun m => m.user_id == some uid) = true := by
        rw [List.any_eq_true]
        obtain ⟨m, hm, hmu⟩ := hyes
        exact ⟨m, hm, by simp [hmu]⟩
      unfold getRegistration
      rw [hr]
      dsimp only
      rw [jsSomePopulated_of_resolvable db r.members uid hres]
      dsimp only
      rw [if_neg (by simp [hany])]
  · intro uid r
    unfold visibleInList memberFilterMatches
    simp [List.any_eq_true]
  · intro db uid s l r hl hr
    unfold listRegistrations at hl
    injection hl with hl
    subst hl
    rcases s with _ | st
    · exact (List.mem_filter.mp hr).2
    · have := (List.mem_filter.mp hr).1
      exact (List.mem_filter.mp this).2
  · intro db uid eid ev s l r hev horg hl hr
    unfold listRegistrations at hl
    dsimp only at hl
    rw [hev] at hl
    dsimp only at hl
    rw [if_neg (by simp [horg])] at hl
    injection hl with hl
    subst hl
    rcases s with _ | st
    · exact (List.mem_filter.mp hr).2
    · have := (List.mem_filter.mp hr).1
      exact (List.mem_filter.mp this).2



/-- Witness for C9 (amended) at concrete inputs: user 3 (no relation to
registration 79) is refused; user 2 (invited member) gets it. -/
theorem c9_witness :
    getRegistration pendingDb 3 false 79 =
      .error ⟨403, "You are not authorized to view this registration"⟩ ∧
    getRegistration pendingDb 2 false 79 = .ok pendingReg := by
  have hres : ∀ m ∈ pendingReg.members, ∃ u, m.user_id = some u ∧
      (pendingDb.findUser u).isSome = true := by
    intro m hm
    rcases List.mem_cons.mp hm with rfl | hm2
    · exact ⟨1, rfl, rfl⟩
    · rcases List.mem_cons.mp hm2 with rfl | hm3
      · exact ⟨2, rfl, rfl⟩
      · cases hm3
  have horg3 : ∀ ev, pendingDb.findEvent pendingReg.event_id = some ev →
      ev.organizer_id ≠ 3 := by
    intro ev hev
    rw [show pendingDb.findEvent pendingReg.event_id = some sampleEvent from rfl]
      at hev
    injection hev with hev
    rw [← hev]
    decide
  have horg2 : ∀ ev, pendingDb.findEvent pendingReg.event_id = some ev →
      ev.organizer_id ≠ 2 := by
    intro ev hev
    rw [show pendingDb.findEvent pendingReg.event_id = some sampleEvent from rfl]
      at hev
    injection hev with hev
    rw [← hev]
    decide
  constructor
  · exact ((c9_visibility).1 pendingDb 3 79 pendingReg rfl horg3
      (by decide) hres).1 (by decide)
  · exact ((c9_visibility).1 pendingDb 2 79 pendingReg rfl horg2
      (by decide) hres).2
      ⟨⟨some 2, none, none, MemberRole.member, InviteStatus.invited, none⟩,
        by decide, rfl⟩

end CampusEventHub
